import Mathlib

/-!
Shallow embedding of the hook orchestration engine of `hook.c` (config-driven
hook discovery, dispatch planning, stdin feeding, and result aggregation),
together with the thin CLI `run` wrapper from `builtin/hook.c`.

Hooks are represented by their identity: `some name` for a hook configured via
`hook.<name>.event`, `none` for the anonymous hook found in the hook directory.
External collaborators (the config store, the filesystem probe, path
resolution, file contents) are packaged in a `Repo` record of pure lookup
functions; the process-parallel executor (`run-command.c`, not part of the
hook-management source) is modelled from the spec as a driver that pulls every
task from the planner in list order and reports each task's outcome through
the two callbacks.
-/

namespace HookEngine

/-- One configuration entry as delivered by the config enumeration callback,
already split into section, optional subsection and variable name (the
parsing itself is the external config collaborator's job). -/
structure ConfigEntry where
  sectionName : String
  subsectionName : Option String
  varName : String
  value : Option String
deriving DecidableEq, Repr

/-- External collaborators of the hook engine, as pure lookup functions:
the ordered config enumeration, single-key string lookup
(`repo_config_get_string`), the `hook.jobs` integer config, `online_cpus()`,
the hookdir probe (`find_hook`: the resolved path when an executable hook
file exists), `absolute_path`, and the line contents of files (for stdin). -/
structure Repo where
  configEntries : List ConfigEntry
  getString : String → Option String
  hookJobs : Option Int
  onlineCpus : Int
  hookdirHook : String → Option String
  absPath : String → String
  fileContents : String → List String

/-- `find_hook_by_name` walks the list and deletes the first hook whose name
matches, returning the remaining list; anonymous (hookdir) entries carry no
name and never match. -/
def remove_named : List (Option String) → String → List (Option String)
  | [], _ => []
  | h :: t, n => if h = some n then t else h :: remove_named t n

/-- `append_or_move_hook`: a hookdir hook (no name) is appended as is; a named
hook is removed from the list if already present (`find_hook_by_name`) and
the (new or reused) descriptor is added at the tail. -/
def append_or_move_hook (head : List (Option String)) (name : Option String) :
    List (Option String) :=
  match name with
  | none => head ++ [none]
  | some n => remove_named head n ++ [some n]

/-- `hook_config_lookup`: config callback that appends the subsection of every
`hook.<identity>.event = <hook_event>` entry to the hook list via
`append_or_move_hook` (a missing subsection yields the empty identity,
as `strbuf_add` of a zero-length subsection does). -/
def hook_config_lookup (hook_event : String) (acc : List (Option String))
    (e : ConfigEntry) : List (Option String) :=
  if e.value = some hook_event then
    if e.sectionName = "hook" ∧ e.varName = "event" then
      append_or_move_hook acc (some (e.subsectionName.getD ""))
    else acc
  else acc

/-- `list_hooks`: scan all config entries in order, then append the anonymous
hookdir hook when `find_hook` locates an executable file for the event. -/
def list_hooks (r : Repo) (hookname : String) : List (Option String) :=
  let cfg := r.configEntries.foldl (hook_config_lookup hookname) []
  match r.hookdirHook hookname with
  | some _ => append_or_move_hook cfg none
  | none => cfg

/-- `pipe_from_string_list`: one feed step. The per-task cursor
(`hook->feed_pipe_cb_data`) is allocated at index 0 on first use; while lines
remain the current line plus a newline is emitted and the cursor advances
(return code 0 = more data); otherwise the cursor is freed and 1 (exhausted)
is returned. -/
def pipe_from_string_list (to_pipe : List String) (feed_pipe_cb_data : Option Nat) :
    Option Nat × Option String × Nat :=
  let item_idx := feed_pipe_cb_data.getD 0
  if h : item_idx < to_pipe.length then
    (some (item_idx + 1), some (to_pipe.get ⟨item_idx, h⟩ ++ "\n"), 0)
  else
    (none, none, 1)

/-- Modelled from the spec: the executor side of the feeder contract
(`run-command.c` is not part of the hook sources). It repeatedly calls the
feed callback for one task, collecting the emitted lines, until the callback
reports exhaustion. Fuel bounds the recursion; `to_pipe.length + 1` steps
always suffice. -/
def run_feeder (to_pipe : List String) : Option Nat → Nat → List String
  | _, 0 => []
  | cursor, fuel + 1 =>
    match pipe_from_string_list to_pipe cursor with
    | (c, some line, _) => line :: run_feeder to_pipe c fuel
    | (_, none, _) => []

/-- Total number of lines consumed when two hooks are fed from the same
shared string list under concurrency 1: the first task runs to exhaustion,
then the second; the only state shared between them is the immutable list,
each hook owning its own `feed_pipe_cb_data` cursor (initially absent). -/
def two_task_total (to_pipe : List String) : Nat :=
  (run_feeder to_pipe none (to_pipe.length + 1)).length +
    (run_feeder to_pipe none (to_pipe.length + 1)).length

/-- Fatal conditions: `BUG()` (internal invariant violation) and `die()`
(fatal user-facing diagnostic); both abort the whole process. -/
inductive Fatal where
  | bug : String → Fatal
  | die : String → Fatal
deriving DecidableEq, Repr

/-- How a task's stdin is populated: closed (`no_stdin`), a freshly opened
read-only file (`xopen(path_to_stdin, O_RDONLY)`), or an executor-created
pipe fed by the feeder callback. -/
inductive StdinSource where
  | closed
  | file (path : String)
  | pipe
deriving DecidableEq, Repr

/-- A fully resolved child-process invocation as assembled by
`pick_next_hook`. -/
structure Task where
  use_shell : Bool
  args : List String
  stdin_src : StdinSource
  env : List String
  stdout_to_stderr : Bool
  dir : Option String
  trace2_hook_name : String
deriving DecidableEq, Repr

/-- Caller options for one orchestration run (`struct run_hooks_opt`).
`feed_pipe` records whether a feed callback was supplied and `invoked_hook`
whether the caller passed an out-pointer for the "a hook ran" flag. -/
structure RunHooksOpt where
  env : List String
  args : List String
  jobs : Int
  dir : Option String
  path_to_stdin : Option String
  feed_pipe : Bool
  feed_pipe_ctx : List String
  consume_sideband : Bool
  error_if_missing : Bool
  invoked_hook : Bool
deriving DecidableEq, Repr

/-- `RUN_HOOKS_OPT_INIT_SERIAL`: empty env/args, one job, no stdin source,
all flags off. -/
def RUN_HOOKS_OPT_INIT_SERIAL : RunHooksOpt :=
  { env := [], args := [], jobs := 1, dir := none, path_to_stdin := none,
    feed_pipe := false, feed_pipe_ctx := [], consume_sideband := false,
    error_if_missing := false, invoked_hook := false }

/-- The stdin policy chosen by `pick_next_hook`: a supplied stdin file path is
reopened read-only for the task; otherwise an active feeder asks the executor
for a pipe; otherwise stdin stays closed. -/
def stdin_policy (options : RunHooksOpt) : StdinSource :=
  match options.path_to_stdin with
  | some p => .file p
  | none => if options.feed_pipe then .pipe else .closed

/-- The body of `pick_next_hook` for one descriptor: resolve the invocation
(config-named hooks look up `hook.<name>.command` and run through the shell,
dying when the key is absent; the anonymous hook uses the hookdir path, made
absolute under a working-directory override, and a missing hookdir file is a
BUG), choose the stdin policy, and append the caller's argv verbatim. -/
def build_task (r : Repo) (hook_name : String) (options : RunHooksOpt)
    (to_run : Option String) : Except Fatal Task :=
  match to_run with
  | some name =>
    match r.getString ("hook." ++ name ++ ".command") with
    | some command =>
      .ok { use_shell := true, args := command :: options.args,
            stdin_src := stdin_policy options, env := options.env,
            stdout_to_stderr := true, dir := options.dir,
            trace2_hook_name := hook_name }
    | none =>
      .error (.die ("hook." ++ name ++ ".command must be configured or hook."
        ++ name ++ ".event must be removed; aborting."))
  | none =>
    match r.hookdirHook hook_name with
    | some hook_path =>
      .ok { use_shell := false,
            args := (if (options.dir).isSome then r.absPath hook_path
                     else hook_path) :: options.args,
            stdin_src := stdin_policy options, env := options.env,
            stdout_to_stderr := true, dir := options.dir,
            trace2_hook_name := hook_name }
    | none =>
      .error (.bug "hookdir hook in hook list but no hookdir hook present in filesystem")

/-- What the executor observes for one launched task: the launch failed, or
the child ran and exited with the given status. -/
inductive TaskOutcome where
  | startFailure
  | finished (code : Nat)
deriving DecidableEq, Repr

/-- Whether the outcome is a completed child process. -/
def TaskOutcome.isFinished : TaskOutcome → Bool
  | .startFailure => false
  | .finished _ => true

/-- The contribution of one task outcome to the aggregate result:
`notify_start_failure` ORs in 1, `notify_hook_finished` ORs in the exit
status. -/
def contrib : TaskOutcome → Nat
  | .startFailure => 1
  | .finished code => code

/-- The message added by `notify_start_failure` (named hook vs hookdir). -/
def start_failure_msg : Option String → String
  | some n => "Could not start hook " ++ n ++ "\n"
  | none => "Could not start hook from hooks directory\n"

/-- Mutable callback state threaded through the executor run: the
OR-accumulated result (`hook_cb->rc`), the "at least one hook ran" flag, the
collected callback messages, and the tasks issued by the planner. -/
structure ExecState where
  rc : Nat
  invoked : Bool
  msgs : List String
  tasks : List Task
deriving DecidableEq, Repr

/-- The two per-task callbacks applied to the callback state:
`notify_start_failure` ORs 1 into `rc` and records the per-identity message;
`notify_hook_finished` ORs the exit status into `rc` and sets the
"a hook ran" flag. -/
def apply_outcome (s : ExecState) (h : Option String) (t : Task) :
    TaskOutcome → ExecState
  | .startFailure =>
    { s with rc := s.rc ||| 1,
             msgs := s.msgs ++ [start_failure_msg h],
             tasks := s.tasks ++ [t] }
  | .finished code =>
    { s with rc := s.rc ||| code, invoked := true,
             tasks := s.tasks ++ [t] }

/-- Modelled from the spec: the bounded-parallelism executor
(`run_processes_parallel`, external to the hook sources) pulls every task
from the planner in hook-list order; a start failure is recorded through
`notify_start_failure` and does not abort the remaining tasks, a completion
is folded in through `notify_hook_finished`. `outcomes i` is the outcome of
the i-th issued task; a fatal error while building a task aborts the whole
run. -/
def drive (r : Repo) (hook_name : String) (options : RunHooksOpt)
    (outcomes : Nat → TaskOutcome) :
    List (Option String) → Nat → ExecState → Except Fatal ExecState
  | [], _, s => .ok s
  | h :: rest, i, s =>
    match build_task r hook_name options h with
    | .error f => .error f
    | .ok t =>
      drive r hook_name options outcomes rest (i + 1)
        (apply_outcome s h t (outcomes i))

/-- `configured_hook_jobs`: the `hook.jobs` config when set, else the number
of CPUs (the C static cache is observationally irrelevant for one process
run, as the spec assumes stable config and hardware). -/
def configured_hook_jobs (r : Repo) : Int :=
  match r.hookJobs with
  | some j => j
  | none => r.onlineCpus

/-- The observable outcome of one `run_hooks_opt` call: the returned value,
the diagnostics emitted via `error()`, whether `run_processes_parallel` was
invoked and with which `processes` (concurrency) and `ungroup` values, the
resolved job count, the tasks issued, the value left in the caller's
`invoked_hook` out-pointer, and the final accumulated `rc`. -/
structure RunResult where
  ret : Int
  diagnostics : List String
  executor_invoked : Bool
  processes : Nat
  ungroup : Bool
  jobs_resolved : Int
  tasks : List Task
  invoked_hook_value : Option Bool
  rc : Nat
deriving DecidableEq, Repr

/-- `run_hooks_opt`: discover the hook list; reset the caller's invoked flag;
BUG when both stdin sources are chosen; an empty list is silent success or
one `error()` diagnostic (returning the -1 error sentinel) depending on
`error_if_missing`, without invoking the executor; otherwise resolve the job
count (caller value if nonzero, else `configured_hook_jobs`), compute output
grouping (ungrouped when the resolved jobs equal 1 or the list has exactly
one element, i.e. the first entry's `next` is the head), and drive the
executor, whose options carry `processes = 1` as initialized, returning the
accumulated `rc`. -/
def run_hooks_opt (r : Repo) (hook_name : String) (options : RunHooksOpt)
    (outcomes : Nat → TaskOutcome) : Except Fatal RunResult :=
  let head := list_hooks r hook_name
  let invoked0 : Option Bool := if options.invoked_hook then some false else none
  if (options.path_to_stdin).isSome && options.feed_pipe then
    .error (.bug "choose only one method to populate stdin")
  else if head.isEmpty && !options.error_if_missing then
    .ok { ret := 0, diagnostics := [], executor_invoked := false,
          processes := 1, ungroup := true, jobs_resolved := options.jobs,
          tasks := [], invoked_hook_value := invoked0, rc := 0 }
  else if head.isEmpty then
    .ok { ret := -1,
          diagnostics := ["cannot find a hook named " ++ hook_name],
          executor_invoked := false, processes := 1, ungroup := true,
          jobs_resolved := options.jobs, tasks := [],
          invoked_hook_value := invoked0, rc := 0 }
  else
    let jobs_eff : Int := if options.jobs == 0 then configured_hook_jobs r
                          else options.jobs
    let ungroup : Bool := jobs_eff == 1 || head.length == 1
    match drive r hook_name options outcomes head 0
        { rc := 0, invoked := false, msgs := [], tasks := [] } with
    | .error f => .error f
    | .ok s =>
      .ok { ret := (s.rc : Int), diagnostics := s.msgs,
            executor_invoked := true, processes := 1, ungroup := ungroup,
            jobs_resolved := jobs_eff, tasks := s.tasks,
            invoked_hook_value := if options.invoked_hook then some s.invoked
                                  else none,
            rc := s.rc }

/-- The options assembled by the `run` subcommand of `builtin/hook.c` from
its parsed flags: serial defaults, with `error_if_missing` set unless
`--ignore-missing` was given. -/
def cli_opt (ignore_missing : Bool) (to_stdin : Option String) (jobs : Int)
    (args : List String) : RunHooksOpt :=
  { RUN_HOOKS_OPT_INIT_SERIAL with
    path_to_stdin := to_stdin, jobs := jobs, args := args,
    error_if_missing := !ignore_missing }

/-- The `run` subcommand of `builtin/hook.c`: build the options from the
parsed flags, call `run_hooks_opt`, and map a negative `error()` sentinel to
exit code 1. -/
def run_cli (r : Repo) (hook_name : String) (ignore_missing : Bool)
    (to_stdin : Option String) (jobs : Int) (args : List String)
    (outcomes : Nat → TaskOutcome) : Except Fatal Int :=
  match run_hooks_opt r hook_name (cli_opt ignore_missing to_stdin jobs args)
      outcomes with
  | .error f => .error f
  | .ok res => .ok (if res.ret < 0 then 1 else res.ret)

/-- The lines a task actually reads on stdin: a file-backed stdin delivers
the whole file from the beginning (the file is opened anew per task). -/
def task_input (r : Repo) (t : Task) : List String :=
  match t.stdin_src with
  | .file p => r.fileContents p
  | _ => []

/-- Named identities occur at most once in a hook list. -/
def NamedUnique (l : List (Option String)) : Prop :=
  ∀ m : String, l.count (some m) ≤ 1

/-- A repository with two configured hooks `a` and `b` for event `test-hook`,
both with commands, no hookdir hook, and a three-line stdin file `input`. -/
def r_two : Repo :=
  { configEntries :=
      [⟨"hook", some "a", "event", some "test-hook"⟩,
       ⟨"hook", some "b", "event", some "test-hook"⟩],
    getString := fun k =>
      if k = "hook.a.command" then some "xargs -P1 -I% echo a%"
      else if k = "hook.b.command" then some "xargs -P1 -I% echo b%"
      else none,
    hookJobs := none, onlineCpus := 8, hookdirHook := fun _ => none,
    absPath := id, fileContents := fun p =>
      if p = "input" then ["1", "2", "3"] else [] }

/-- A repository whose only entry declares `hook.broken.event = test-hook`
with no command configured anywhere. -/
def r_broken : Repo :=
  { configEntries := [⟨"hook", some "broken", "event", some "test-hook"⟩],
    getString := fun _ => none, hookJobs := none, onlineCpus := 1,
    hookdirHook := fun _ => none, absPath := id, fileContents := fun _ => [] }

/-- A repository with no configured hooks and no hookdir hooks. -/
def r_empty : Repo :=
  { configEntries := [], getString := fun _ => none, hookJobs := none,
    onlineCpus := 1, hookdirHook := fun _ => none, absPath := id,
    fileContents := fun _ => [] }

/-- A repository with one configured hook for `pre-commit` plus an executable
hookdir hook for every event. -/
def r_dir : Repo :=
  { configEntries := [⟨"hook", some "ghi", "event", some "pre-commit"⟩],
    getString := fun k => if k = "hook.ghi.command" then some "/path/ghi"
                          else none,
    hookJobs := none, onlineCpus := 2,
    hookdirHook := fun n => some (".git/hooks/" ++ n), absPath := id,
    fileContents := fun _ => [] }

/-- Every task finishes with exit status 0. -/
def outcomes_ok : Nat → TaskOutcome := fun _ => .finished 0

/-- The first task fails to start, all later tasks exit with status 2. -/
def outcomes_mixed : Nat → TaskOutcome := fun i =>
  if i = 0 then .startFailure else .finished 2

/-- The outcomes handed to tasks `i, i+1, ..., i+n-1`, in issue order. -/
def outcomes_used (outcomes : Nat → TaskOutcome) : Nat → Nat → List TaskOutcome
  | _, 0 => []
  | i, n + 1 => outcomes i :: outcomes_used outcomes (i + 1) n

/-- Serial options with a caller-specified job count of 4. -/
def opt_j4 : RunHooksOpt := { RUN_HOOKS_OPT_INIT_SERIAL with jobs := 4 }

/-- Serial options reading stdin from the file `input`. -/
def opt_stdin : RunHooksOpt :=
  { RUN_HOOKS_OPT_INIT_SERIAL with path_to_stdin := some "input" }

/-- The task built for hook `a` of `r_two` under stdin-less options. -/
def task_a : Task :=
  { use_shell := true, args := ["xargs -P1 -I% echo a%"],
    stdin_src := .closed, env := [], stdout_to_stderr := true, dir := none,
    trace2_hook_name := "test-hook" }

/-- The task built for hook `b` of `r_two` under stdin-less options. -/
def task_b : Task :=
  { use_shell := true, args := ["xargs -P1 -I% echo b%"],
    stdin_src := .closed, env := [], stdout_to_stderr := true, dir := none,
    trace2_hook_name := "test-hook" }

/-- The result of running the two hooks of `r_two` with `opt_j4` when every
task exits 0. -/
def res_j4 : RunResult :=
  { ret := 0, diagnostics := [], executor_invoked := true, processes := 1,
    ungroup := false, jobs_resolved := 4, tasks := [task_a, task_b],
    invoked_hook_value := none, rc := 0 }

/-- The result of running the two hooks of `r_two` with `opt_stdin` when
every task exits 0. -/
def res_stdin : RunResult :=
  { ret := 0, diagnostics := [], executor_invoked := true, processes := 1,
    ungroup := true, jobs_resolved := 1,
    tasks := [{ task_a with stdin_src := .file "input" },
              { task_b with stdin_src := .file "input" }],
    invoked_hook_value := none, rc := 0 }

/-- The result of running the two hooks of `r_two` serially when the first
task fails to start and the second exits with status 2. -/
def res_mixed : RunResult :=
  { ret := 3, diagnostics := ["Could not start hook a\n"],
    executor_invoked := true, processes := 1, ungroup := true,
    jobs_resolved := 1, tasks := [task_a, task_b],
    invoked_hook_value := none, rc := 3 }

theorem count_remove_named_self (l : List (Option String)) (n : String) :
    (remove_named l n).count (some n) = l.count (some n) - 1 := by
  induction l with
  | nil => simp [remove_named]
  | cons h t ih =>
    by_cases hx : h = some n
    · subst hx
      simp [remove_named]
    · simp [remove_named, hx, ih, List.count_cons_of_ne (Ne.symm hx)]

theorem count_remove_named_of_ne (l : List (Option String)) (n : String)
    (x : Option String) (hx : x ≠ some n) :
    (remove_named l n).count x = l.count x := by
  induction l with
  | nil => simp [remove_named]
  | cons h t ih =>
    by_cases hh : h = some n
    · subst hh
      simp [remove_named, List.count_cons_of_ne hx]
    · by_cases hxh : x = h
      · subst hxh
        simp [remove_named, hh, ih]
      · simp [remove_named, hh, ih, List.count_cons_of_ne hxh]

theorem append_or_move_preserves_unique (l : List (Option String))
    (x : Option String) (h : NamedUnique l) :
    NamedUnique (append_or_move_hook l x) := by
  intro m
  cases x with
  | none =>
    have : (none : Option String) ≠ some m := by simp
    simpa [append_or_move_hook, List.count_singleton'] using h m
  | some n =>
    by_cases hmn : m = n
    · subst hmn
      have h1 := count_remove_named_self l m
      have h2 := h m
      simp [append_or_move_hook, List.count_singleton']
      omega
    · have h1 := count_remove_named_of_ne l n (some m) (by simpa using hmn)
      have h2 := h m
      simp [append_or_move_hook, List.count_singleton', hmn, h1]
      omega

theorem foldl_append_or_move_unique (ops : List (Option String))
    (l : List (Option String)) (h : NamedUnique l) :
    NamedUnique (ops.foldl append_or_move_hook l) := by
  induction ops generalizing l with
  | nil => simpa using h
  | cons op rest ih =>
    simpa using ih (append_or_move_hook l op)
      (append_or_move_preserves_unique l op h)

/-- Claim C4: in every list built by a sequence of `append_or_move_hook`
operations starting from the empty list, named identities are unique;
registering an identity again yields exactly one descriptor for it, placed
at the tail of the list (the point of the last declaration). -/
theorem append_or_move_unique_and_tail (ops : List (Option String)) (n : String) :
    (∀ m : String, ((ops.foldl append_or_move_hook []).count (some m)) ≤ 1) ∧
    ((append_or_move_hook (ops.foldl append_or_move_hook []) (some n)).count
      (some n) = 1) ∧
    ((append_or_move_hook (ops.foldl append_or_move_hook []) (some n)).getLast?
      = some (some n)) := by
  have huniq : NamedUnique (ops.foldl append_or_move_hook []) :=
    foldl_append_or_move_unique ops [] (by intro m; simp)
  refine ⟨huniq, ?_, ?_⟩
  · have h1 := count_remove_named_self (ops.foldl append_or_move_hook []) n
    have h2 := huniq n
    simp [append_or_move_hook, List.count_singleton']
    omega
  · exact List.getLast?_concat _

theorem mem_remove_named (l : List (Option String)) (n : String)
    (x : Option String) (hx : x ∈ remove_named l n) : x ∈ l := by
  induction l with
  | nil => simp [remove_named] at hx
  | cons h t ih =>
    by_cases hh : h = some n
    · subst hh
      simp [remove_named] at hx
      exact List.mem_cons_of_mem _ hx
    · simp [remove_named, hh] at hx
      rcases hx with hx | hx
      · exact hx ▸ List.mem_cons_self _ _
      · exact List.mem_cons_of_mem _ (ih hx)

theorem no_anon_hook_config_lookup (ev : String) (acc : List (Option String))
    (e : ConfigEntry) (h : none ∉ acc) :
    none ∉ hook_config_lookup ev acc e := by
  unfold hook_config_lookup
  split
  · split
    · intro hmem
      simp [append_or_move_hook] at hmem
      exact h (mem_remove_named _ _ _ hmem)
    · exact h
  · exact h

theorem no_anon_config_fold (ev : String) (entries : List ConfigEntry)
    (acc : List (Option String)) (h : none ∉ acc) :
    none ∉ entries.foldl (hook_config_lookup ev) acc := by
  induction entries generalizing acc with
  | nil => simpa using h
  | cons e rest ih =>
    simpa using ih (hook_config_lookup ev acc e)
      (no_anon_hook_config_lookup ev acc e h)

/-- Claim C7: discovery appends the anonymous hookdir hook after scanning the
configuration, so the list holds at most one anonymous descriptor, and when
one is present it is the last element (after every configured hook). -/
theorem hookdir_hook_last_and_unique (r : Repo) (name : String) :
    ((list_hooks r name).count none ≤ 1) ∧
    (none ∈ list_hooks r name → (list_hooks r name).getLast? = some none) := by
  have hcfg : none ∉ r.configEntries.foldl (hook_config_lookup name) [] :=
    no_anon_config_fold name r.configEntries [] (by simp)
  unfold list_hooks
  cases hdir : r.hookdirHook name with
  | none =>
    refine ⟨?_, ?_⟩
    · simp [List.count_eq_zero_of_not_mem hcfg]
    · intro hmem
      exact absurd hmem hcfg
  | some p =>
    refine ⟨?_, ?_⟩
    · simp [append_or_move_hook, List.count_eq_zero_of_not_mem hcfg]
    · intro _
      exact List.getLast?_concat _

/-- Claim C7 witness: a repository with one configured hook and a hookdir
hook for `pre-commit`. -/
theorem hookdir_hook_last_and_unique_witness :
    ((list_hooks r_dir "pre-commit").count none ≤ 1) ∧
    ((list_hooks r_dir "pre-commit").getLast? = some none) :=
  ⟨(hookdir_hook_last_and_unique r_dir "pre-commit").1,
   (hookdir_hook_last_and_unique r_dir "pre-commit").2 (by decide)⟩

theorem run_feeder_none (l : List String) (fuel : Nat) :
    run_feeder l none fuel = run_feeder l (some 0) fuel := by
  cases fuel <;> rfl

theorem run_feeder_drop (l : List String) (fuel i : Nat)
    (h : l.length ≤ i + fuel) :
    run_feeder l (some i) fuel = (l.drop i).map (fun s => s ++ "\n") := by
  induction fuel generalizing i with
  | zero =>
    rw [List.drop_eq_nil_of_le (by omega)]
    rfl
  | succ fuel ih =>
    by_cases hi : i < l.length
    · rw [List.drop_eq_getElem_cons hi]
      simp only [run_feeder, pipe_from_string_list, Option.getD_some, hi,
        dite_true, List.map_cons]
      exact congrArg _ (ih (i + 1) (by omega))
    · rw [List.drop_eq_nil_of_le (by omega)]
      simp only [run_feeder, pipe_from_string_list, Option.getD_some, hi,
        dite_false, List.map_nil]

/-- Claim C2 counterexample: feeding the 2-line shared list `["1", "2"]` to
2 hooks under concurrency 1 consumes 4 lines in total across both tasks,
not 2 — each task reads the whole list, so no shared global cursor exists. -/
theorem feeder_not_globally_shared_counterexample :
    two_task_total ["1", "2"] = 4 ∧ two_task_total ["1", "2"] ≠ 2 := by
  constructor <;> decide

/-- Claim C2 amended: each task's lazily created cursor starts at index 0 of
the shared line list (not at a shared global index); every feed call advances
only that task's cursor, so each task independently replays and exhausts the
whole source: the lines fed to one task are exactly the source lines each
with a newline appended, and feeding N lines of shared input to 2 hooks
under concurrency 1 consumes 2·N lines in total. -/
theorem feeder_per_task_replay (l : List String) :
    run_feeder l none (l.length + 1) = l.map (fun s => s ++ "\n") ∧
    two_task_total l = 2 * l.length := by
  have h0 : run_feeder l none (l.length + 1) = l.map (fun s => s ++ "\n") := by
    rw [run_feeder_none, run_feeder_drop l (l.length + 1) 0 (by omega)]
    rfl
  refine ⟨h0, ?_⟩
  simp [two_task_total, h0]
  omega

/-- Claim C5: for an event with zero discovered hooks, `run_hooks_opt`
returns success (0) with no diagnostic when `error_if_missing` is off, and a
nonzero value with exactly one "cannot find a hook named" diagnostic when it
is on; either way the executor is never invoked and no task is dispatched. -/
theorem empty_hooks_policy (r : Repo) (hook_name : String)
    (options : RunHooksOpt) (outcomes : Nat → TaskOutcome)
    (hempty : list_hooks r hook_name = [])
    (hbug : ((options.path_to_stdin).isSome && options.feed_pipe) = false) :
    ∃ res, run_hooks_opt r hook_name options outcomes = .ok res ∧
      res.executor_invoked = false ∧ res.tasks = [] ∧
      (if options.error_if_missing then
        res.ret ≠ 0 ∧
          res.diagnostics = ["cannot find a hook named " ++ hook_name]
      else res.ret = 0 ∧ res.diagnostics = []) := by
  cases herr : options.error_if_missing with
  | false =>
    refine ⟨{ ret := 0, diagnostics := [], executor_invoked := false,
              processes := 1, ungroup := true, jobs_resolved := options.jobs,
              tasks := [],
              invoked_hook_value :=
                if options.invoked_hook then some false else none,
              rc := 0 }, ?_, rfl, rfl, ?_⟩
    · unfold run_hooks_opt
      simp [hempty, hbug, herr]
    · simp [herr]
  | true =>
    refine ⟨{ ret := -1,
              diagnostics := ["cannot find a hook named " ++ hook_name],
              executor_invoked := false, processes := 1, ungroup := true,
              jobs_resolved := options.jobs, tasks := [],
              invoked_hook_value :=
                if options.invoked_hook then some false else none,
              rc := 0 }, ?_, rfl, rfl, ?_⟩
    · unfold run_hooks_opt
      simp [hempty, hbug, herr]
    · simp [herr]

/-- Claim C5 witness: the empty repository, under both missing-hook
policies. -/
theorem empty_hooks_policy_witness :
    (∃ res, run_hooks_opt r_empty "nope"
        { RUN_HOOKS_OPT_INIT_SERIAL with error_if_missing := true }
        outcomes_ok = .ok res ∧
      res.executor_invoked = false ∧ res.tasks = [] ∧
      (res.ret ≠ 0 ∧ res.diagnostics = ["cannot find a hook named nope"])) ∧
    (∃ res, run_hooks_opt r_empty "nope" RUN_HOOKS_OPT_INIT_SERIAL
        outcomes_ok = .ok res ∧
      res.executor_invoked = false ∧ res.tasks = [] ∧
      (res.ret = 0 ∧ res.diagnostics = [])) := by
  constructor
  · obtain ⟨res, h1, h2, h3, h4⟩ :=
      empty_hooks_policy r_empty "nope"
        { RUN_HOOKS_OPT_INIT_SERIAL with error_if_missing := true }
        outcomes_ok (by decide) (by decide)
    exact ⟨res, h1, h2, h3, by simpa using h4⟩
  · obtain ⟨res, h1, h2, h3, h4⟩ :=
      empty_hooks_policy r_empty "nope" RUN_HOOKS_OPT_INIT_SERIAL
        outcomes_ok (by decide) (by decide)
    exact ⟨res, h1, h2, h3, by simpa using h4⟩

/-- Claim C6: the CLI `run` operation never hands a negative value back to
its caller: whenever `run_hooks_opt` produced a negative `error()` sentinel,
the returned exit code is normalized to the positive value 1, and every
returned code is nonnegative. -/
theorem run_cli_normalizes_negative (r : Repo) (hook_name : String)
    (ignore_missing : Bool) (to_stdin : Option String) (jobs : Int)
    (args : List String) (outcomes : Nat → TaskOutcome) :
    (∀ v : Int,
      run_cli r hook_name ignore_missing to_stdin jobs args outcomes = .ok v →
      0 ≤ v) ∧
    (∀ res : RunResult,
      run_hooks_opt r hook_name (cli_opt ignore_missing to_stdin jobs args)
        outcomes = .ok res →
      res.ret < 0 →
      run_cli r hook_name ignore_missing to_stdin jobs args outcomes
        = .ok 1) := by
  unfold run_cli
  cases hrun : run_hooks_opt r hook_name
      (cli_opt ignore_missing to_stdin jobs args) outcomes with
  | error f =>
    refine ⟨?_, ?_⟩
    · intro v hv
      simp at hv
    · intro res hres
      simp at hres
  | ok res =>
    refine ⟨?_, ?_⟩
    · intro v hv
      simp at hv
      by_cases hneg : res.ret < 0
      · simp [hneg] at hv
        omega
      · simp [hneg] at hv
        omega
    · intro res2 hres2 hneg
      injection hres2 with h
      subst h
      simp [hneg]

/-- Claim C6 witness: on the empty repository the missing-hook sentinel -1
comes back from the CLI as exit code 1. -/
theorem run_cli_normalizes_negative_witness :
    run_cli r_empty "nope" false none 1 [] outcomes_ok = Except.ok 1 ∧
    (0 : Int) ≤ 1 :=
  ⟨(run_cli_normalizes_negative r_empty "nope" false none 1 []
      outcomes_ok).2
    { ret := -1, diagnostics := ["cannot find a hook named nope"],
      executor_invoked := false, processes := 1, ungroup := true,
      jobs_resolved := 1, tasks := [], invoked_hook_value := none, rc := 0 }
    (by rfl) (by decide),
   (run_cli_normalizes_negative r_empty "nope" false none 1 []
      outcomes_ok).1 1 (by rfl)⟩

theorem anon_mem_list_hooks (r : Repo) (name : String)
    (h : none ∈ list_hooks r name) : (r.hookdirHook name).isSome = true := by
  unfold list_hooks at h
  cases hdir : r.hookdirHook name with
  | some p => simp
  | none =>
    rw [hdir] at h
    exact absurd h (no_anon_config_fold name r.configEntries [] (by simp))

theorem drive_die_of_missing (r : Repo) (hook_name : String)
    (options : RunHooksOpt) (outcomes : Nat → TaskOutcome)
    (hooks : List (Option String)) (i : Nat) (s : ExecState)
    (hanon : ∀ h ∈ hooks, h = none → (r.hookdirHook hook_name).isSome = true)
    (hbad : ∃ n : String, some n ∈ hooks ∧
      r.getString ("hook." ++ n ++ ".command") = none) :
    ∃ msg, drive r hook_name options outcomes hooks i s
      = .error (.die msg) := by
  induction hooks generalizing i s with
  | nil =>
    rcases hbad with ⟨n, hn, _⟩
    simp at hn
  | cons h t ih =>
    cases h with
    | some m =>
      cases hcmd : r.getString ("hook." ++ m ++ ".command") with
      | none =>
        refine ⟨"hook." ++ m ++ ".command must be configured or hook." ++ m
          ++ ".event must be removed; aborting.", ?_⟩
        simp [drive, build_task, hcmd]
      | some cmd =>
        rcases hbad with ⟨n, hn, hmiss⟩
        have hnt : some n ∈ t := by
          rcases List.mem_cons.mp hn with heq | h2
          · injection heq with heq
            rw [heq] at hmiss
            rw [hmiss] at hcmd
            exact absurd hcmd (by simp)
          · exact h2
        have hanon2 : ∀ h ∈ t, h = none →
            (r.hookdirHook hook_name).isSome = true :=
          fun h hmem heq => hanon h (List.mem_cons_of_mem _ hmem) heq
        obtain ⟨msg, hmsg⟩ := ih (i + 1) _ hanon2 ⟨n, hnt, hmiss⟩
        exact ⟨msg, by simpa [drive, build_task, hcmd] using hmsg⟩
    | none =>
      have hdirsome := hanon none (List.mem_cons_self _ _) rfl
      cases hdir : r.hookdirHook hook_name with
      | none => simp [hdir] at hdirsome
      | some path =>
        rcases hbad with ⟨n, hn, hmiss⟩
        have hnt : some n ∈ t := by
          rcases List.mem_cons.mp hn with heq | h2
          · exact absurd heq (by simp)
          · exact h2
        have hanon2 : ∀ h ∈ t, h = none →
            (r.hookdirHook hook_name).isSome = true :=
          fun h hmem heq => hanon h (List.mem_cons_of_mem _ hmem) heq
        obtain ⟨msg, hmsg⟩ := ih (i + 1) _ hanon2 ⟨n, hnt, hmiss⟩
        exact ⟨msg, by simpa [drive, build_task, hdir] using hmsg⟩

/-- Claim C3: when a descriptor with a configured identity reaches the
planner and the key `hook.<identity>.command` is absent from the
configuration, the whole run aborts with the fatal `die()` diagnostic — the
run produces no result for any task instead of failing just that one task. -/
theorem missing_command_aborts_run (r : Repo) (hook_name : String)
    (options : RunHooksOpt) (outcomes : Nat → TaskOutcome) (n : String)
    (hbug : ((options.path_to_stdin).isSome && options.feed_pipe) = false)
    (hmem : some n ∈ list_hooks r hook_name)
    (hmiss : r.getString ("hook." ++ n ++ ".command") = none) :
    ∃ msg, run_hooks_opt r hook_name options outcomes
      = .error (.die msg) := by
  have hanon : ∀ h ∈ list_hooks r hook_name, h = none →
      (r.hookdirHook hook_name).isSome = true :=
    fun h hmemh heq => anon_mem_list_hooks r hook_name (heq ▸ hmemh)
  obtain ⟨msg, hmsg⟩ := drive_die_of_missing r hook_name options outcomes
    (list_hooks r hook_name) 0
    { rc := 0, invoked := false, msgs := [], tasks := [] }
    hanon ⟨n, hmem, hmiss⟩
  have hne : (list_hooks r hook_name).isEmpty = false := by
    cases hl : list_hooks r hook_name with
    | nil => rw [hl] at hmem; simp at hmem
    | cons a l => simp
  refine ⟨msg, ?_⟩
  unfold run_hooks_opt
  simp [hbug, hne, hmsg]

/-- Claim C3 witness: `hook.broken.event` is declared but no
`hook.broken.command` exists, so the run dies. -/
theorem missing_command_aborts_run_witness :
    ∃ msg, run_hooks_opt r_broken "test-hook" RUN_HOOKS_OPT_INIT_SERIAL
      outcomes_ok = .error (.die msg) :=
  missing_command_aborts_run r_broken "test-hook" RUN_HOOKS_OPT_INIT_SERIAL
    outcomes_ok "broken" (by decide) (by decide) (by decide)

/-- Claim C9: on a run that reaches the executor, output is ungrouped
exactly when the resolved job count is 1 or the discovered list has exactly
one hook, and the resolved job count follows the resolution rule (caller
value when nonzero, else the configured/CPU default). -/
theorem ungroup_iff_serial_or_single (r : Repo) (hook_name : String)
    (options : RunHooksOpt) (outcomes : Nat → TaskOutcome) (res : RunResult)
    (hok : run_hooks_opt r hook_name options outcomes = .ok res)
    (hinv : res.executor_invoked = true) :
    res.ungroup = ((res.jobs_resolved == 1)
      || ((list_hooks r hook_name).length == 1)) ∧
    res.jobs_resolved = (if options.jobs == 0 then configured_hook_jobs r
                         else options.jobs) := by
  unfold run_hooks_opt at hok
  cases hbug : (options.path_to_stdin).isSome && options.feed_pipe with
  | true => simp [hbug] at hok
  | false =>
    cases hempty : (list_hooks r hook_name).isEmpty with
    | true =>
      simp [hbug, hempty] at hok
      cases herr : options.error_if_missing with
      | false =>
        simp [herr] at hok
        rw [← hok] at hinv
        simp at hinv
      | true =>
        simp [herr] at hok
        rw [← hok] at hinv
        simp at hinv
    | false =>
      simp [hbug, hempty] at hok
      cases hdrive : drive r hook_name options outcomes
          (list_hooks r hook_name) 0
          { rc := 0, invoked := false, msgs := [], tasks := [] } with
      | error f => simp [hdrive] at hok
      | ok s =>
        simp [hdrive] at hok
        rw [← hok]
        exact ⟨rfl, by simp⟩

/-- Claim C9 witness: two hooks with caller-specified jobs 4 give grouped
output; the equations are discharged at the concrete run result. -/
theorem ungroup_iff_serial_or_single_witness :
    res_j4.ungroup = ((res_j4.jobs_resolved == 1)
      || ((list_hooks r_two "test-hook").length == 1)) ∧
    res_j4.jobs_resolved = (if opt_j4.jobs == 0 then configured_hook_jobs r_two
                            else opt_j4.jobs) :=
  ungroup_iff_serial_or_single r_two "test-hook" opt_j4 outcomes_ok res_j4
    (by rfl) (by rfl)

theorem build_task_stdin_src (r : Repo) (hook_name : String)
    (options : RunHooksOpt) (h : Option String) (t : Task)
    (hok : build_task r hook_name options h = .ok t) :
    t.stdin_src = stdin_policy options := by
  cases h with
  | some n =>
    cases hcmd : r.getString ("hook." ++ n ++ ".command") with
    | none => simp [build_task, hcmd] at hok
    | some cmd =>
      simp [build_task, hcmd] at hok
      rw [← hok]
  | none =>
    cases hdir : r.hookdirHook hook_name with
    | none => simp [build_task, hdir] at hok
    | some p =>
      simp [build_task, hdir] at hok
      rw [← hok]

theorem apply_outcome_tasks (s : ExecState) (h : Option String) (t : Task)
    (o : TaskOutcome) : (apply_outcome s h t o).tasks = s.tasks ++ [t] := by
  cases o <;> rfl

theorem apply_outcome_rc (s : ExecState) (h : Option String) (t : Task)
    (o : TaskOutcome) : (apply_outcome s h t o).rc = s.rc ||| contrib o := by
  cases o <;> rfl

theorem apply_outcome_invoked (s : ExecState) (h : Option String) (t : Task)
    (o : TaskOutcome) :
    (apply_outcome s h t o).invoked = (s.invoked || o.isFinished) := by
  cases o <;> simp [apply_outcome, TaskOutcome.isFinished]

theorem drive_tasks_stdin (r : Repo) (hook_name : String)
    (options : RunHooksOpt) (outcomes : Nat → TaskOutcome)
    (hooks : List (Option String)) :
    ∀ (i : Nat) (s s' : ExecState),
      drive r hook_name options outcomes hooks i s = .ok s' →
      ∀ t ∈ s'.tasks, t ∈ s.tasks ∨ t.stdin_src = stdin_policy options := by
  induction hooks with
  | nil =>
    intro i s s' hd t ht
    simp [drive] at hd
    rw [← hd] at ht
    exact Or.inl ht
  | cons hd tl ih =>
    intro i s s' hdr t ht
    cases hb : build_task r hook_name options hd with
    | error f => simp [drive, hb] at hdr
    | ok tk =>
      simp [drive, hb] at hdr
      rcases ih (i + 1) _ s' hdr t ht with hmem | hpol
      · rw [apply_outcome_tasks] at hmem
        rcases List.mem_append.mp hmem with h1 | h1
        · exact Or.inl h1
        · simp at h1
          exact Or.inr (h1 ▸ build_task_stdin_src r hook_name options hd tk hb)
      · exact Or.inr hpol

theorem drive_tasks_length (r : Repo) (hook_name : String)
    (options : RunHooksOpt) (outcomes : Nat → TaskOutcome)
    (hooks : List (Option String)) :
    ∀ (i : Nat) (s s' : ExecState),
      drive r hook_name options outcomes hooks i s = .ok s' →
      s'.tasks.length = s.tasks.length + hooks.length := by
  induction hooks with
  | nil =>
    intro i s s' hd
    simp [drive] at hd
    rw [← hd]
    simp
  | cons hd tl ih =>
    intro i s s' hdr
    cases hb : build_task r hook_name options hd with
    | error f => simp [drive, hb] at hdr
    | ok tk =>
      simp [drive, hb] at hdr
      have := ih (i + 1) _ s' hdr
      rw [apply_outcome_tasks] at this
      simp at this
      simp [this]
      omega

/-- Claim C10: when a stdin file path is supplied, every task the planner
issues has its stdin bound to that file, freshly opened, so each task reads
the complete file contents from the beginning; on a run that reaches the
executor one task is issued per discovered hook. -/
theorem stdin_file_replayed_per_task (r : Repo) (hook_name : String)
    (options : RunHooksOpt) (outcomes : Nat → TaskOutcome) (p : String)
    (res : RunResult)
    (hpath : options.path_to_stdin = some p)
    (hok : run_hooks_opt r hook_name options outcomes = .ok res) :
    (∀ t ∈ res.tasks,
      t.stdin_src = StdinSource.file p ∧ task_input r t = r.fileContents p) ∧
    (res.executor_invoked = true →
      res.tasks.length = (list_hooks r hook_name).length) := by
  unfold run_hooks_opt at hok
  cases hbug : (options.path_to_stdin).isSome && options.feed_pipe with
  | true => simp [hbug] at hok
  | false =>
    cases hempty : (list_hooks r hook_name).isEmpty with
    | true =>
      simp [hbug, hempty] at hok
      cases herr : options.error_if_missing with
      | false =>
        simp [herr] at hok
        rw [← hok]
        refine ⟨?_, ?_⟩
        · intro t ht
          simp at ht
        · intro hinv
          simp at hinv
      | true =>
        simp [herr] at hok
        rw [← hok]
        refine ⟨?_, ?_⟩
        · intro t ht
          simp at ht
        · intro hinv
          simp at hinv
    | false =>
      simp [hbug, hempty] at hok
      cases hdrive : drive r hook_name options outcomes
          (list_hooks r hook_name) 0
          { rc := 0, invoked := false, msgs := [], tasks := [] } with
      | error f => simp [hdrive] at hok
      | ok s =>
        simp [hdrive] at hok
        rw [← hok]
        refine ⟨?_, ?_⟩
        · intro t ht
          have hmem := drive_tasks_stdin r hook_name options outcomes
            (list_hooks r hook_name) 0 _ s hdrive t ht
          rcases hmem with hmem | hpol
          · simp at hmem
          · have hfile : t.stdin_src = StdinSource.file p := by
              rw [hpol, stdin_policy, hpath]
            exact ⟨hfile, by rw [task_input, hfile]⟩
        · intro _
          have := drive_tasks_length r hook_name options outcomes
            (list_hooks r hook_name) 0 _ s hdrive
          simpa using this

/-- Claim C10 witness: both hooks of `r_two`, run with `--to-stdin=input`,
read the complete three-line file. -/
theorem stdin_file_replayed_per_task_witness :
    (Task.stdin_src { task_a with stdin_src := .file "input" }
        = StdinSource.file "input" ∧
      task_input r_two { task_a with stdin_src := .file "input" }
        = r_two.fileContents "input") ∧
    (Task.stdin_src { task_b with stdin_src := .file "input" }
        = StdinSource.file "input" ∧
      task_input r_two { task_b with stdin_src := .file "input" }
        = r_two.fileContents "input") ∧
    res_stdin.tasks.length = (list_hooks r_two "test-hook").length :=
  ⟨(stdin_file_replayed_per_task r_two "test-hook" opt_stdin outcomes_ok
      "input" res_stdin (by rfl) (by rfl)).1 _ (by simp [res_stdin]),
   (stdin_file_replayed_per_task r_two "test-hook" opt_stdin outcomes_ok
      "input" res_stdin (by rfl) (by rfl)).1 _ (by simp [res_stdin]),
   (stdin_file_replayed_per_task r_two "test-hook" opt_stdin outcomes_ok
      "input" res_stdin (by rfl) (by rfl)).2 (by rfl)⟩

theorem foldl_lor_perm {l1 l2 : List Nat} (p : l1.Perm l2) :
    ∀ b : Nat, l1.foldl (fun a c => a ||| c) b
      = l2.foldl (fun a c => a ||| c) b := by
  induction p with
  | nil => intro b; rfl
  | cons x _ ih =>
    intro b
    simp only [List.foldl_cons]
    exact ih _
  | swap x y l =>
    intro b
    simp only [List.foldl_cons]
    rw [Nat.lor_assoc, Nat.lor_assoc, Nat.lor_comm y x]
  | trans _ _ ih1 ih2 =>
    intro b
    exact (ih1 b).trans (ih2 b)

theorem drive_aggregate (r : Repo) (hook_name : String)
    (options : RunHooksOpt) (outcomes : Nat → TaskOutcome)
    (hooks : List (Option String)) :
    ∀ (i : Nat) (s s' : ExecState),
      drive r hook_name options outcomes hooks i s = .ok s' →
      s'.rc = ((outcomes_used outcomes i hooks.length).map contrib).foldl
        (fun a c => a ||| c) s.rc ∧
      s'.invoked = (s.invoked
        || (outcomes_used outcomes i hooks.length).any TaskOutcome.isFinished)
      := by
  induction hooks with
  | nil =>
    intro i s s' hd
    simp [drive] at hd
    rw [← hd]
    simp [outcomes_used]
  | cons hd tl ih =>
    intro i s s' hdr
    cases hb : build_task r hook_name options hd with
    | error f => simp [drive, hb] at hdr
    | ok tk =>
      simp [drive, hb] at hdr
      obtain ⟨hrc, hinv⟩ := ih (i + 1) _ s' hdr
      rw [apply_outcome_rc] at hrc
      rw [apply_outcome_invoked] at hinv
      constructor
      · rw [hrc]
        simp [outcomes_used, List.foldl_cons]
      · rw [hinv]
        simp [outcomes_used, Bool.or_assoc]

theorem drive_ok_any_outcomes (r : Repo) (hook_name : String)
    (options : RunHooksOpt) (outcomes : Nat → TaskOutcome)
    (hooks : List (Option String)) :
    ∀ (i : Nat) (s s' : ExecState),
      drive r hook_name options outcomes hooks i s = .ok s' →
      ∀ (outcomes2 : Nat → TaskOutcome) (i2 : Nat) (s2 : ExecState),
      ∃ s3, drive r hook_name options outcomes2 hooks i2 s2 = .ok s3 := by
  induction hooks with
  | nil =>
    intro i s s' _ outcomes2 i2 s2
    exact ⟨s2, by simp [drive]⟩
  | cons hd tl ih =>
    intro i s s' hdr outcomes2 i2 s2
    cases hb : build_task r hook_name options hd with
    | error f => simp [drive, hb] at hdr
    | ok tk =>
      simp [drive, hb] at hdr
      obtain ⟨s3, hs3⟩ := ih (i + 1) _ s' hdr outcomes2 (i2 + 1)
        (apply_outcome s2 hd tk (outcomes2 i2))
      exact ⟨s3, by simp [drive, hb, hs3]⟩

/-- Claim C8: on a run that reaches the executor, the aggregate `rc` is the
bitwise OR of every per-task contribution (a start failure contributes 1,
a completed task its exit status), the fold is order-independent (so the
aggregate does not depend on completion order), the caller's invoked-hook
flag is set exactly when some task finished, one task is issued per hook,
and replacing the outcomes (e.g. by ones with start failures) still lets the
run complete with every task issued — a start failure aborts nothing. -/
theorem aggregate_or_semantics (r : Repo) (hook_name : String)
    (options : RunHooksOpt) (outcomes : Nat → TaskOutcome) (res : RunResult)
    (hok : run_hooks_opt r hook_name options outcomes = .ok res)
    (hinv : res.executor_invoked = true) :
    res.rc = ((outcomes_used outcomes 0 (list_hooks r hook_name).length).map
      contrib).foldl (fun a c => a ||| c) 0 ∧
    res.invoked_hook_value = (if options.invoked_hook then
      some ((outcomes_used outcomes 0
        (list_hooks r hook_name).length).any TaskOutcome.isFinished)
      else none) ∧
    res.tasks.length = (list_hooks r hook_name).length ∧
    (∀ outs1 outs2 : List TaskOutcome, outs1.Perm outs2 →
      (outs1.map contrib).foldl (fun a c => a ||| c) 0
        = (outs2.map contrib).foldl (fun a c => a ||| c) 0) ∧
    (∀ outcomes2 : Nat → TaskOutcome, ∃ res2,
      run_hooks_opt r hook_name options outcomes2 = .ok res2 ∧
      res2.tasks.length = (list_hooks r hook_name).length) := by
  have hperm : ∀ outs1 outs2 : List TaskOutcome, outs1.Perm outs2 →
      (outs1.map contrib).foldl (fun a c => a ||| c) 0
        = (outs2.map contrib).foldl (fun a c => a ||| c) 0 :=
    fun outs1 outs2 p => foldl_lor_perm (p.map contrib) 0
  unfold run_hooks_opt at hok
  cases hbug : (options.path_to_stdin).isSome && options.feed_pipe with
  | true => simp [hbug] at hok
  | false =>
    cases hempty : (list_hooks r hook_name).isEmpty with
    | true =>
      simp [hbug, hempty] at hok
      cases herr : options.error_if_missing with
      | false =>
        simp [herr] at hok
        rw [← hok] at hinv
        simp at hinv
      | true =>
        simp [herr] at hok
        rw [← hok] at hinv
        simp at hinv
    | false =>
      simp [hbug, hempty] at hok
      cases hdrive : drive r hook_name options outcomes
          (list_hooks r hook_name) 0
          { rc := 0, invoked := false, msgs := [], tasks := [] } with
      | error f => simp [hdrive] at hok
      | ok s =>
        simp [hdrive] at hok
        obtain ⟨hrc, hinvd⟩ := drive_aggregate r hook_name options outcomes
          (list_hooks r hook_name) 0 _ s hdrive
        have hlen := drive_tasks_length r hook_name options outcomes
          (list_hooks r hook_name) 0 _ s hdrive
        rw [← hok]
        refine ⟨by simpa using hrc, by simp [hinvd], by simpa using hlen,
          hperm, ?_⟩
        intro outcomes2
        obtain ⟨s3, hs3⟩ := drive_ok_any_outcomes r hook_name options
          outcomes (list_hooks r hook_name) 0 _ s hdrive outcomes2 0
          { rc := 0, invoked := false, msgs := [], tasks := [] }
        have hlen3 := drive_tasks_length r hook_name options outcomes2
          (list_hooks r hook_name) 0 _ s3 hs3
        have hrun2 : run_hooks_opt r hook_name options outcomes2
            = .ok { ret := (s3.rc : Int), diagnostics := s3.msgs,
                    executor_invoked := true, processes := 1,
                    ungroup := ((if options.jobs == 0 then
                        configured_hook_jobs r else options.jobs) == 1)
                      || ((list_hooks r hook_name).length == 1),
                    jobs_resolved := if options.jobs == 0 then
                      configured_hook_jobs r else options.jobs,
                    tasks := s3.tasks,
                    invoked_hook_value := if options.invoked_hook then
                      some s3.invoked else none,
                    rc := s3.rc } := by
          unfold run_hooks_opt
          simp [hbug, hempty, hs3]
        exact ⟨_, hrun2, by simpa using hlen3⟩

/-- Claim C8 witness: the two hooks of `r_two` with a start failure on the
first task and exit status 2 on the second give aggregate `1 ||| 2 = 3`,
with both tasks issued. -/
theorem aggregate_or_semantics_witness :
    res_mixed.rc = ((outcomes_used outcomes_mixed 0
      (list_hooks r_two "test-hook").length).map contrib).foldl
      (fun a c => a ||| c) 0 ∧
    res_mixed.tasks.length = (list_hooks r_two "test-hook").length :=
  ⟨(aggregate_or_semantics r_two "test-hook" RUN_HOOKS_OPT_INIT_SERIAL
      outcomes_mixed res_mixed (by rfl) (by rfl)).1,
   (aggregate_or_semantics r_two "test-hook" RUN_HOOKS_OPT_INIT_SERIAL
      outcomes_mixed res_mixed (by rfl) (by rfl)).2.2.1⟩

/-- Claim C1 (code bug): with two discovered hooks and a caller-specified
job count of 4 the orchestrator resolves the effective concurrency to 4, yet
the executor options passed to `run_processes_parallel` still carry the
initialization value `processes = 1`, so the resolved job count is never the
executor's concurrency limit. -/
theorem run_passes_fixed_process_count :
    (run_hooks_opt r_two "test-hook" opt_j4 outcomes_ok).toOption.map
      (fun res => (res.jobs_resolved, res.processes)) = some (4, 1) ∧
    (1 : Nat) ≠ 4 := by
  constructor
  · rfl
  · decide

end HookEngine
